import Mathlib

/-!
Shallow embedding of the binding surface declared in
`src/Vendor/PDFium/include/fpdfview.h`, together with models of the
boundary behaviour the specification ascribes to the wrapped library.
The header itself only declares types, enum constants and function
prototypes; wherever a definition captures behaviour that is not in the
header, its doc comment says so explicitly.
-/

namespace FPDFView

/-! ## C types at the declared interface

The header declares `size_t` (for the document byte count of
`FPDF_LoadMemDocument64`) and C `int` (for page indices, page counts and
bitmap width/height/stride).  The widths below model the LP64 target the
binding is compiled for: `int` is 32 bits, `size_t` is 64 bits. -/

/-- C scalar types that appear in the declared prototypes. -/
inductive CType where
  | cInt
  | cSizeT
deriving DecidableEq, Repr

/-- Largest value representable in each C type on the LP64 target. -/
def CType.maxVal : CType → Nat
  | .cInt => 2 ^ 31 - 1
  | .cSizeT => 2 ^ 64 - 1

/-- Smallest value representable in each C type on the LP64 target. -/
def CType.minVal : CType → Int
  | .cInt => -(2 ^ 31)
  | .cSizeT => 0

/-- The scalar parameters and results of the declared interface that the
specification discusses: the byte count of `FPDF_LoadMemDocument64`, the
page index of `FPDF_LoadPage`, the result of `FPDF_GetPageCount`, and the
width, height and stride parameters of `FPDFBitmap_CreateEx`. -/
inductive IfaceScalar where
  | docSize
  | pageIndex
  | pageCount
  | bmpWidth
  | bmpHeight
  | bmpStride
deriving DecidableEq, Repr

/-- The C type each scalar has in the header's prototypes:
`FPDF_LoadMemDocument64(const void* data_buf, size_t size, ...)`,
`int FPDF_GetPageCount(...)`, `FPDF_LoadPage(..., int page_index)`,
`FPDFBitmap_CreateEx(int width, int height, int format, void* first_scan,
int stride)`. -/
def ifaceType : IfaceScalar → CType
  | .docSize => .cSizeT
  | .pageIndex => .cInt
  | .pageCount => .cInt
  | .bmpWidth => .cInt
  | .bmpHeight => .cInt
  | .bmpStride => .cInt

/-! ## Enum constants from the header -/

/-- Enumerator `FPDFBitmap_Unknown = 0` in the header's pixel-format enum. -/
def FPDFBitmap_Unknown : Nat := 0

/-- Enumerator `FPDFBitmap_Gray = 1` in the header's pixel-format enum. -/
def FPDFBitmap_Gray : Nat := 1

/-- Enumerator `FPDFBitmap_BGR = 2` in the header's pixel-format enum. -/
def FPDFBitmap_BGR : Nat := 2

/-- Enumerator `FPDFBitmap_BGRx = 3` in the header's pixel-format enum. -/
def FPDFBitmap_BGRx : Nat := 3

/-- Enumerator `FPDFBitmap_BGRA = 4` in the header's pixel-format enum. -/
def FPDFBitmap_BGRA : Nat := 4

/-- Enumerator `FPDF_ANNOT = 0x01` in the header's render-flags enum. -/
def FPDF_ANNOT : Nat := 0x01

/-- The pixel-format enumeration of the header, as a closed inductive
type: one constructor per enumerator. -/
inductive PixelFormat where
  | unknown
  | gray
  | bgr
  | bgrx
  | bgra
deriving DecidableEq, Repr

/-- Numeric value of each pixel-format enumerator, as in the header. -/
def PixelFormat.toNat : PixelFormat → Nat
  | .unknown => FPDFBitmap_Unknown
  | .gray => FPDFBitmap_Gray
  | .bgr => FPDFBitmap_BGR
  | .bgrx => FPDFBitmap_BGRx
  | .bgra => FPDFBitmap_BGRA

/-- All pixel-format enumerators. -/
def PixelFormat.all : List PixelFormat :=
  [.unknown, .gray, .bgr, .bgrx, .bgra]

/-- Decode the `int format` argument of `FPDFBitmap_CreateEx` back to an
enumerator, when it names one. -/
def formatOfInt (n : Int) : Option PixelFormat :=
  if n = 0 then some .unknown
  else if n = 1 then some .gray
  else if n = 2 then some .bgr
  else if n = 3 then some .bgrx
  else if n = 4 then some .bgra
  else none

/-- Bytes per pixel of each format: one gray byte, three bytes
blue/green/red, four bytes with a padding or alpha byte.  `unknown` has
no pixel layout. -/
def PixelFormat.bytesPerPixel : PixelFormat → Nat
  | .unknown => 0
  | .gray => 1
  | .bgr => 3
  | .bgrx => 4
  | .bgra => 4

/-! ## Memory, pages, documents, bitmaps -/

/-- Byte-addressed memory: the caller's address space, one byte value
per address.  Modelled from the spec: the caller supplies and owns all
pixel buffers, which live somewhere in this address space. -/
def Mem : Type := Nat → Nat

/-- Modelled from the spec: a page is an opaque handle whose raster the
wrapped library computes during rendering.  We model the raster as a
function giving byte `k` of the source pixel at `(x, y)`, with a second
raster for the variant that also draws annotations (flag 0x01). -/
structure Page where
  plainByte : Nat → Nat → Nat → Nat
  annotByte : Nat → Nat → Nat → Nat

/-- Modelled from the spec: a loaded document owns its list of pages. -/
structure Document where
  pages : List Page

/-- The bitmap handle made by `FPDFBitmap_CreateEx(width, height,
format, first_scan, stride)`: it records the creation arguments, with
`first_scan` as an address into `Mem`.  Modelled from the spec: the
handle wraps the caller-provided buffer plus width, height, pixel format
and row stride; the pixel memory itself stays in `Mem`, owned by the
caller. -/
structure Bitmap where
  width : Int
  height : Int
  format : Int
  first_scan : Nat
  stride : Int
deriving DecidableEq, Repr

/-- Modelled from the spec: create bitmap from external buffer returns a
handle recording the caller's arguments. -/
def FPDFBitmap_CreateEx (width height format : Int) (first_scan : Nat)
    (stride : Int) : Bitmap :=
  ⟨width, height, format, first_scan, stride⟩

/-- Modelled from the spec: read accessor exposing the caller's own
buffer pointer back. -/
def FPDFBitmap_GetBuffer (b : Bitmap) : Nat := b.first_scan

/-- Modelled from the spec: read accessor returning the row stride the
bitmap was created with. -/
def FPDFBitmap_GetStride (b : Bitmap) : Int := b.stride

/-- Bitmap width as a natural number. -/
def Bitmap.widthN (b : Bitmap) : Nat := b.width.toNat

/-- Bitmap height as a natural number. -/
def Bitmap.heightN (b : Bitmap) : Nat := b.height.toNat

/-- Bitmap stride as a natural number. -/
def Bitmap.strideN (b : Bitmap) : Nat := b.stride.toNat

/-- The pixel format the bitmap's `format` integer names (`unknown` when
it names none). -/
def Bitmap.fmt (b : Bitmap) : PixelFormat :=
  (formatOfInt b.format).getD .unknown

/-- Bytes per pixel of the bitmap's format. -/
def Bitmap.bpp (b : Bitmap) : Nat := b.fmt.bytesPerPixel

/-- Size in bytes of the caller buffer the spec requires: exactly
`stride * height`. -/
def Bitmap.bufBytes (b : Bitmap) : Nat := b.strideN * b.heightN

/-- Well-formed bitmap: positive dimensions, a known pixel format, and a
stride wide enough for one row of pixels.  This is the caller contract
the spec states for `FPDFBitmap_CreateEx`: the buffer holds
`stride * height` bytes, each row of `width * bytesPerPixel` payload
bytes starting at a stride boundary. -/
def Bitmap.wf (b : Bitmap) : Prop :=
  0 < b.width ∧ 0 < b.height ∧ formatOfInt b.format = some b.fmt ∧
    b.fmt ≠ .unknown ∧ b.widthN * b.bpp ≤ b.strideN

instance (b : Bitmap) : Decidable b.wf := by
  unfold Bitmap.wf; infer_instance

/-! ## Colors and pixel encoding -/

/-- Alpha channel of a 32-bit 0xAARRGGBB color. -/
def colorA (c : Nat) : Nat := c / 2 ^ 24 % 256

/-- Red channel of a 32-bit 0xAARRGGBB color. -/
def colorR (c : Nat) : Nat := c / 2 ^ 16 % 256

/-- Green channel of a 32-bit 0xAARRGGBB color. -/
def colorG (c : Nat) : Nat := c / 2 ^ 8 % 256

/-- Blue channel of a 32-bit 0xAARRGGBB color. -/
def colorB (c : Nat) : Nat := c % 256

/-- Modelled from the spec's glossary: the pixel-format encoding of a
color, as the list of bytes one pixel occupies.  Gray stores a single
luminance byte derived from the channels; BGR stores blue, green, red;
BGRx adds an opaque padding byte; BGRA adds the alpha channel. -/
def encodePixel (f : PixelFormat) (c : Nat) : List Nat :=
  match f with
  | .unknown => []
  | .gray => [(colorR c + colorG c + colorB c) / 3]
  | .bgr => [colorB c, colorG c, colorR c]
  | .bgrx => [colorB c, colorG c, colorR c, 255]
  | .bgra => [colorB c, colorG c, colorR c, colorA c]

/-! ## FillRect -/

/-- Is the pixel with bitmap coordinates `(x, y)` inside the requested
rectangle clipped to the bitmap bounds?  Clipping at zero is implicit in
the coordinates being naturals. -/
def inClippedRect (b : Bitmap) (left top w h : Int) (x y : Nat) : Prop :=
  left ≤ (x : Int) ∧ (x : Int) < left + w ∧ (x : Int) < b.width ∧
    top ≤ (y : Int) ∧ (y : Int) < top + h ∧ (y : Int) < b.height

instance (b : Bitmap) (left top w h : Int) (x y : Nat) :
    Decidable (inClippedRect b left top w h x y) := by
  unfold inClippedRect; infer_instance

/-- Modelled from the spec: `FPDFBitmap_FillRect(bitmap, left, top,
width, height, color)` writes the solid color into the requested
sub-rectangle of the buffer, clipped to the bitmap bounds.  An address
`a` of the caller buffer decomposes into row `(a - first_scan) / stride`
and, within the row, pixel `/ bytesPerPixel` and byte `% bytesPerPixel`;
the bytes of covered pixels receive the format encoding of the color and
every other address is untouched. -/
def FPDFBitmap_FillRect (mem : Mem) (b : Bitmap) (left top w h : Int)
    (color : Nat) : Mem :=
  fun a =>
    if b.first_scan ≤ a ∧ a < b.first_scan + b.bufBytes ∧
        inClippedRect b left top w h
          ((a - b.first_scan) % b.strideN / b.bpp)
          ((a - b.first_scan) / b.strideN) then
      (encodePixel b.fmt color).getD ((a - b.first_scan) % b.strideN % b.bpp) 0
    else mem a

/-! ## Rendering -/

/-- Modelled from the spec: map destination coordinates back to page
raster coordinates under a 0/90/180/270-degree rotation of a `w·h`
raster. -/
def rotatedSource (rotate : Int) (w h x y : Nat) : Nat × Nat :=
  if rotate = 90 then (y, w - 1 - x)
  else if rotate = 180 then (w - 1 - x, h - 1 - y)
  else if rotate = 270 then (h - 1 - y, x)
  else (x, y)

/-- Modelled from the spec: the byte the renderer produces for byte `k`
of destination pixel `(x, y)`, honoring rotation and the annotation flag
(bit 0x01 selects the raster that includes annotations). -/
def renderedByte (p : Page) (rotate flags : Int) (w h x y k : Nat) : Nat :=
  if flags % 2 = 1 then
    p.annotByte (rotatedSource rotate w h x y).1 (rotatedSource rotate w h x y).2 k
  else
    p.plainByte (rotatedSource rotate w h x y).1 (rotatedSource rotate w h x y).2 k

/-- The destination x-coordinates of `FPDF_RenderPageBitmap`: the
requested range `[start_x, start_x + size_x)` clipped to the bitmap's
`[0, width)`. -/
def destXs (b : Bitmap) (start_x size_x : Int) : List Nat :=
  (List.range ((min b.width (start_x + size_x)).toNat - start_x.toNat)).map
    (fun d => start_x.toNat + d)

/-- The destination y-coordinates of `FPDF_RenderPageBitmap`: the
requested range `[start_y, start_y + size_y)` clipped to the bitmap's
`[0, height)`. -/
def destYs (b : Bitmap) (start_y size_y : Int) : List Nat :=
  (List.range ((min b.height (start_y + size_y)).toNat - start_y.toNat)).map
    (fun d => start_y.toNat + d)

/-- All destination pixels of a render call: the requested rectangle
clipped to the bitmap bounds. -/
def destPixels (b : Bitmap) (start_x start_y size_x size_y : Int) :
    List (Nat × Nat) :=
  (destYs b start_y size_y).flatMap
    (fun y => (destXs b start_x size_x).map (fun x => (x, y)))

/-- Does the render call write at address `a`?  True exactly when `a` is
byte `k < bytesPerPixel` of some destination pixel of the clipped
rectangle. -/
def renderWrites (b : Bitmap) (start_x start_y size_x size_y : Int)
    (a : Nat) : Bool :=
  (destPixels b start_x start_y size_x size_y).any fun q =>
    (List.range b.bpp).any fun k =>
      a == b.first_scan + q.2 * b.strideN + q.1 * b.bpp + k

/-- Modelled from the spec: `FPDF_RenderPageBitmap` rasterizes the
page's content into the requested sub-rectangle of the bitmap buffer,
honoring rotation and flags.  Bytes of destination pixels receive the
rendered value; every other address is untouched. -/
def FPDF_RenderPageBitmap (mem : Mem) (b : Bitmap) (p : Page)
    (start_x start_y size_x size_y rotate flags : Int) : Mem :=
  fun a =>
    if renderWrites b start_x start_y size_x size_y a then
      renderedByte p rotate flags b.widthN b.heightN
        ((a - b.first_scan) % b.strideN / b.bpp)
        ((a - b.first_scan) / b.strideN)
        ((a - b.first_scan) % b.strideN % b.bpp)
    else mem a

/-! ## Bitmap destruction -/

/-- The render-side state: the caller's memory and the bitmap handles
currently alive. -/
structure RenderState where
  mem : Mem
  liveBitmaps : List Bitmap

/-- Modelled from the spec: `FPDFBitmap_Destroy` releases the handle
only; it never frees caller-supplied pixel memory and never touches the
buffer contents. -/
def FPDFBitmap_Destroy (st : RenderState) (b : Bitmap) : RenderState :=
  { st with liveBitmaps := st.liveBitmaps.erase b }

/-! ## Documents and pages -/

/-- Modelled from the spec: `FPDF_GetPageCount` returns the number of
pages of a valid document (an integer ≥ 0) and the zero sentinel on
invalid (null) input. -/
def FPDF_GetPageCount (d : Option Document) : Int :=
  match d with
  | some doc => (doc.pages.length : Int)
  | none => 0

/-- Modelled from the spec: `FPDF_LoadPage(document, page_index)`
returns the page at a valid zero-based index and null when the index is
out of range or the document is null. -/
def FPDF_LoadPage (d : Option Document) (page_index : Int) : Option Page :=
  match d with
  | none => none
  | some doc => if 0 ≤ page_index then doc.pages.get? page_index.toNat else none

/-! ## Loading documents from memory -/

/-- The process-wide last-error state behind `FPDF_GetLastError`. -/
structure PdfState where
  lastError : Nat

/-- The four magic bytes every well-formed stream of the model starts
with. -/
def pdfMagic : List Nat := [0x25, 0x50, 0x44, 0x46]

/-- The password a stream of the model requires: its fifth byte, with 0
meaning the stream is not protected. -/
def requiredPw (bytes : List Nat) : Nat := bytes.getD 4 0

/-- Modelled from the spec: well-formedness of an in-memory document for
a given optional password — the bytes carry the magic prefix and the
password matches when one is required.  The real parser is inside the
wrapped library; this stand-in distinguishes the failure causes the spec
names (bad format, wrong password). -/
def wellFormedPdf (bytes : List Nat) (password : Option Nat) : Prop :=
  bytes.take 4 = pdfMagic ∧
    (requiredPw bytes = 0 ∨ password = some (requiredPw bytes))

instance (bytes : List Nat) (password : Option Nat) :
    Decidable (wellFormedPdf bytes password) := by
  unfold wellFormedPdf; infer_instance

/-- Modelled from the spec: parsing either yields a document or a
nonzero numeric code identifying the cause (3 for bad format, 4 for a
password error, matching the wrapped library's code assignment). -/
def parsePdf (bytes : List Nat) (password : Option Nat) :
    Except Nat Document :=
  if bytes.take 4 ≠ pdfMagic then Except.error 3
  else if requiredPw bytes ≠ 0 ∧ password ≠ some (requiredPw bytes) then
    Except.error 4
  else
    Except.ok ⟨List.replicate (bytes.getD 5 0) ⟨fun _ _ _ => 0, fun _ _ _ => 0⟩⟩

/-- Modelled from the spec: `FPDF_LoadMemDocument64` returns a document
handle or null; on failure it records the nonzero cause code for
`FPDF_GetLastError`, on success it clears it. -/
def FPDF_LoadMemDocument64 (bytes : List Nat) (password : Option Nat)
    (st : PdfState) : Option Document × PdfState :=
  match parsePdf bytes password with
  | Except.ok d => (some d, { st with lastError := 0 })
  | Except.error e => (none, { st with lastError := e })

/-- Reading `FPDF_GetLastError` returns the process-wide last-error code. -/
def FPDF_GetLastError (st : PdfState) : Nat := st.lastError

/-! ## Helper lemmas -/

/-- A known pixel format occupies at least one byte per pixel. -/
lemma PixelFormat.bytesPerPixel_pos {f : PixelFormat} (hf : f ≠ .unknown) :
    0 < f.bytesPerPixel := by
  cases f <;> simp [PixelFormat.bytesPerPixel] at hf ⊢

/-- A well-formed bitmap has at least one byte per pixel. -/
lemma Bitmap.wf.bpp_pos {b : Bitmap} (h : b.wf) : 0 < b.bpp :=
  PixelFormat.bytesPerPixel_pos h.2.2.2.1

/-- A well-formed bitmap has a positive pixel width. -/
lemma Bitmap.wf.widthN_pos {b : Bitmap} (h : b.wf) : 0 < b.widthN := by
  have := h.1; unfold Bitmap.widthN; omega

/-- A well-formed bitmap has a positive pixel height. -/
lemma Bitmap.wf.heightN_pos {b : Bitmap} (h : b.wf) : 0 < b.heightN := by
  have := h.2.1; unfold Bitmap.heightN; omega

/-- A well-formed bitmap has a positive stride. -/
lemma Bitmap.wf.strideN_pos {b : Bitmap} (h : b.wf) : 0 < b.strideN := by
  have h1 := Bitmap.wf.widthN_pos h
  have h2 := Bitmap.wf.bpp_pos h
  have h3 := h.2.2.2.2
  nlinarith

/-- The in-row offset of byte `k` of pixel `x` is below the stride. -/
lemma inRow_offset_lt_strideN {b : Bitmap} (h : b.wf) {x k : Nat}
    (hx : x < b.widthN) (hk : k < b.bpp) : x * b.bpp + k < b.strideN := by
  have h3 := h.2.2.2.2
  have : (x + 1) * b.bpp ≤ b.widthN * b.bpp :=
    Nat.mul_le_mul_right _ hx
  nlinarith

/-- The buffer offset of byte `k` of pixel `(x, y)` is inside the
`stride * height` byte buffer. -/
lemma offset_lt_bufBytes {b : Bitmap} (h : b.wf) {x y k : Nat}
    (hx : x < b.widthN) (hy : y < b.heightN) (hk : k < b.bpp) :
    y * b.strideN + x * b.bpp + k < b.bufBytes := by
  have hrow := inRow_offset_lt_strideN h hx hk
  have : (y + 1) * b.strideN ≤ b.heightN * b.strideN :=
    Nat.mul_le_mul_right _ hy
  unfold Bitmap.bufBytes
  nlinarith

/-- Membership in the clipped destination pixel list implies being
inside the bitmap bounds. -/
lemma destPixels_mem_lt {b : Bitmap} {sx sy sw sh : Int} {q : Nat × Nat}
    (hq : q ∈ destPixels b sx sy sw sh) :
    q.1 < b.widthN ∧ q.2 < b.heightN := by
  unfold destPixels destXs destYs at hq
  simp only [List.mem_flatMap, List.mem_map, List.mem_range] at hq
  obtain ⟨y, ⟨dy, hdy, rfl⟩, x, ⟨dx, hdx, rfl⟩, rfl⟩ := hq
  constructor
  · have h1 : sx.toNat + dx < (min b.width (sx + sw)).toNat := by omega
    have h2 : (min b.width (sx + sw)).toNat ≤ b.width.toNat :=
      Int.toNat_le_toNat (min_le_left _ _)
    unfold Bitmap.widthN
    omega
  · have h1 : sy.toNat + dy < (min b.height (sy + sh)).toNat := by omega
    have h2 : (min b.height (sy + sh)).toNat ≤ b.height.toNat :=
      Int.toNat_le_toNat (min_le_left _ _)
    unfold Bitmap.heightN
    omega

/-- Decomposition of the buffer address of byte `k` of pixel `(x, y)`:
subtracting the base and taking `/ stride`, `% stride`, `/ bpp`,
`% bpp` recovers `y`, the in-row offset, `x` and `k`. -/
lemma addr_decompose {b : Bitmap} (h : b.wf) {x y k : Nat}
    (hx : x < b.widthN) (hk : k < b.bpp) :
    b.first_scan + (y * b.strideN + x * b.bpp + k) - b.first_scan =
        y * b.strideN + x * b.bpp + k ∧
      (y * b.strideN + x * b.bpp + k) / b.strideN = y ∧
      (y * b.strideN + x * b.bpp + k) % b.strideN = x * b.bpp + k ∧
      (x * b.bpp + k) / b.bpp = x ∧
      (x * b.bpp + k) % b.bpp = k := by
  have hst := Bitmap.wf.strideN_pos h
  have hbpp := Bitmap.wf.bpp_pos h
  have hrow := inRow_offset_lt_strideN h hx hk
  refine ⟨by omega, ?_, ?_, ?_, ?_⟩
  · rw [show y * b.strideN + x * b.bpp + k
        = x * b.bpp + k + y * b.strideN from by ring,
      Nat.add_mul_div_right _ _ hst, Nat.div_eq_of_lt hrow, Nat.zero_add]
  · rw [show y * b.strideN + x * b.bpp + k
        = x * b.bpp + k + y * b.strideN from by ring,
      Nat.add_mul_mod_self_right, Nat.mod_eq_of_lt hrow]
  · rw [show x * b.bpp + k = k + x * b.bpp from by ring,
      Nat.add_mul_div_right _ _ hbpp, Nat.div_eq_of_lt hk, Nat.zero_add]
  · rw [show x * b.bpp + k = k + x * b.bpp from by ring,
      Nat.add_mul_mod_self_right, Nat.mod_eq_of_lt hk]

/-- On well-formed input the model parser yields a document. -/
lemma parsePdf_ok_of_wf (bytes : List Nat) (password : Option Nat)
    (hwf : wellFormedPdf bytes password) :
    ∃ d, parsePdf bytes password = Except.ok d := by
  have h1 : ¬bytes.take 4 ≠ pdfMagic := by simp [hwf.1]
  have h2 : ¬(requiredPw bytes ≠ 0 ∧ password ≠ some (requiredPw bytes)) := by
    rcases hwf.2 with h | h
    · exact fun hc => hc.1 h
    · exact fun hc => hc.2 h
  unfold parsePdf
  rw [if_neg h1, if_neg h2]
  exact ⟨_, rfl⟩

/-- Every error code the model parser produces is nonzero. -/
lemma parsePdf_error_ne_zero (bytes : List Nat) (password : Option Nat)
    (e : Nat) (h : parsePdf bytes password = Except.error e) : e ≠ 0 := by
  unfold parsePdf at h
  by_cases h1 : bytes.take 4 ≠ pdfMagic
  · rw [if_pos h1] at h
    simp only [Except.error.injEq] at h
    omega
  · rw [if_neg h1] at h
    by_cases h2 : requiredPw bytes ≠ 0 ∧ password ≠ some (requiredPw bytes)
    · rw [if_pos h2] at h
      simp only [Except.error.injEq] at h
      omega
    · rw [if_neg h2] at h
      simp at h

/-! ## Claim theorems -/

/-- Claim C8: the pixel-format enumeration is closed with exactly the values
Unknown = 0, Gray = 1, BGR = 2, BGRx = 3, BGRA = 4: every enumerator is
in the list of the five, their numeric values are exactly 0,1,2,3,4 in
order, and no two enumerators share a value. -/
theorem pixelFormat_closed_enumeration :
    (∀ f : PixelFormat, f ∈ PixelFormat.all) ∧
    PixelFormat.all.map PixelFormat.toNat = [0, 1, 2, 3, 4] ∧
    ∀ f g : PixelFormat, f.toNat = g.toNat → f = g := by
  refine ⟨fun f => ?_, by decide, fun f g => ?_⟩
  · cases f <;> decide
  · cases f <;> cases g <;> decide

/-- Closed witness for C8: the theorem's injectivity part applied at the
concrete enumerator BGR. -/
theorem pixelFormat_closed_enumeration_witness :
    PixelFormat.bgr.toNat = PixelFormat.bgr.toNat ∧
      PixelFormat.bgr = PixelFormat.bgr :=
  ⟨rfl, pixelFormat_closed_enumeration.2.2 .bgr .bgr rfl⟩

/-- Claim C9: the render-flags enumeration defines the annotation-rendering
option as the bit value 0x01. -/
theorem fpdf_annot_is_bit_one : FPDF_ANNOT = 0x01 := rfl

/-- Claim C10: at the declared interface the document byte count of
`FPDF_LoadMemDocument64` has type `size_t`, so values above 2^31 - 1 are
representable there, while page index, page count and bitmap width,
height and stride are C `int`, hence bounded by the signed 31-bit
maximum. -/
theorem interface_scalar_widths :
    ifaceType .docSize = .cSizeT ∧
    2 ^ 31 - 1 < (ifaceType .docSize).maxVal ∧
    (2 : Nat) ^ 31 ≤ (ifaceType .docSize).maxVal ∧
    ∀ s : IfaceScalar, s ≠ .docSize →
      ifaceType s = .cInt ∧ (ifaceType s).maxVal = 2 ^ 31 - 1 := by
  refine ⟨rfl, by decide, by decide, fun s hs => ?_⟩
  cases s <;> simp_all [ifaceType, CType.maxVal]

/-- Closed witness for C10's hypothesis: `pageIndex` is a scalar other
than `docSize`, and the theorem applies to it. -/
theorem interface_scalar_widths_witness :
    ifaceType .docSize = .cSizeT ∧
    (ifaceType .pageIndex = .cInt ∧
      (ifaceType .pageIndex).maxVal = 2 ^ 31 - 1) :=
  ⟨interface_scalar_widths.1,
    interface_scalar_widths.2.2.2 .pageIndex (by decide)⟩

/-- Claim C7: round-trip of bitmap creation and its read accessors — for every
bitmap created via `FPDFBitmap_CreateEx(width, height, format,
first_scan, stride)`, `FPDFBitmap_GetBuffer` returns exactly the
caller's `first_scan` and `FPDFBitmap_GetStride` exactly the stride
supplied at creation. -/
theorem createEx_accessor_roundtrip (width height format : Int)
    (first_scan : Nat) (stride : Int) :
    FPDFBitmap_GetBuffer
        (FPDFBitmap_CreateEx width height format first_scan stride) =
      first_scan ∧
    FPDFBitmap_GetStride
        (FPDFBitmap_CreateEx width height format first_scan stride) =
      stride :=
  ⟨rfl, rfl⟩

/-- Claim C6: `FPDF_GetPageCount` returns an integer ≥ 0 for a valid document
and a non-positive sentinel (zero) on invalid (null) input. -/
theorem getPageCount_nonneg_or_sentinel :
    (∀ doc : Document, 0 ≤ FPDF_GetPageCount (some doc)) ∧
    FPDF_GetPageCount none ≤ 0 :=
  ⟨fun _ => Int.natCast_nonneg _, le_refl 0⟩

/-- Claim C5: `FPDFBitmap_Destroy` releases only the handle — the caller's
memory is untouched at every address (so the buffer contents remain as
last rendered), and only the handle leaves the live set. -/
theorem bitmapDestroy_frame (st : RenderState) (b : Bitmap) :
    (∀ a, (FPDFBitmap_Destroy st b).mem a = st.mem a) ∧
    (FPDFBitmap_Destroy st b).liveBitmaps = st.liveBitmaps.erase b :=
  ⟨fun _ => rfl, rfl⟩

/-- Claim C2: for every loaded document and index `i`, `FPDF_LoadPage` returns
a page exactly when `0 ≤ i < page_count`; outside that range it returns
null. -/
theorem loadPage_isSome_iff (doc : Document) (page_index : Int) :
    (FPDF_LoadPage (some doc) page_index).isSome = true ↔
      0 ≤ page_index ∧ page_index < FPDF_GetPageCount (some doc) := by
  have hredL : FPDF_LoadPage (some doc) page_index =
      if 0 ≤ page_index then doc.pages.get? page_index.toNat else none := rfl
  have hredC : FPDF_GetPageCount (some doc) = (doc.pages.length : Int) := rfl
  rw [hredL, hredC]
  by_cases hp : 0 ≤ page_index
  · rw [if_pos hp]
    constructor
    · intro h
      obtain ⟨a, ha⟩ := Option.isSome_iff_exists.mp h
      exact ⟨hp, (Int.toNat_lt hp).mp (List.get?_eq_some.mp ha).1⟩
    · rintro ⟨_, hlt⟩
      exact Option.isSome_iff_exists.mpr
        ⟨_, List.get?_eq_get ((Int.toNat_lt hp).mpr hlt)⟩
  · rw [if_neg hp]
    constructor
    · intro h; simp at h
    · rintro ⟨h0, _⟩; exact absurd h0 hp

/-- Closed witness for C2: on a concrete one-page document, loading page
0 yields a page, by the iff applied at index 0. -/
theorem loadPage_isSome_iff_witness :
    (FPDF_LoadPage (some ⟨[⟨fun _ _ _ => 0, fun _ _ _ => 0⟩]⟩) 0).isSome
      = true :=
  (loadPage_isSome_iff ⟨[⟨fun _ _ _ => 0, fun _ _ _ => 0⟩]⟩ 0).mpr
    ⟨le_refl 0, by decide⟩

/-- Claim C3: `FPDF_LoadMemDocument64` yields a non-null handle on well-formed
input; whenever it yields null, the subsequent `FPDF_GetLastError` read
returns a nonzero code identifying the cause. -/
theorem loadMemDocument64_error_contract (bytes : List Nat)
    (password : Option Nat) (st : PdfState) :
    (wellFormedPdf bytes password →
      (FPDF_LoadMemDocument64 bytes password st).1.isSome = true) ∧
    ((FPDF_LoadMemDocument64 bytes password st).1 = none →
      FPDF_GetLastError (FPDF_LoadMemDocument64 bytes password st).2 ≠ 0) := by
  constructor
  · intro hwf
    obtain ⟨d, hd⟩ := parsePdf_ok_of_wf bytes password hwf
    unfold FPDF_LoadMemDocument64
    rw [hd]
    rfl
  · intro hnone
    unfold FPDF_LoadMemDocument64 at hnone ⊢
    cases hpe : parsePdf bytes password with
    | ok d => rw [hpe] at hnone; simp at hnone
    | error e => exact parsePdf_error_ne_zero bytes password e hpe

/-- Closed witness for C3: a concrete well-formed stream loads to a
non-null handle, and a concrete malformed stream loads to null with a
nonzero last-error code. -/
theorem loadMemDocument64_error_contract_witness :
    (wellFormedPdf [0x25, 0x50, 0x44, 0x46, 0, 1] none ∧
      (FPDF_LoadMemDocument64 [0x25, 0x50, 0x44, 0x46, 0, 1] none
          ⟨0⟩).1.isSome = true) ∧
    ((FPDF_LoadMemDocument64 [0x99] none ⟨0⟩).1 = none ∧
      FPDF_GetLastError (FPDF_LoadMemDocument64 [0x99] none ⟨0⟩).2 ≠ 0) :=
  ⟨⟨by decide,
      (loadMemDocument64_error_contract [0x25, 0x50, 0x44, 0x46, 0, 1] none
          ⟨0⟩).1 (by decide)⟩,
    ⟨rfl,
      (loadMemDocument64_error_contract [0x99] none ⟨0⟩).2 rfl⟩⟩

/-- Claim C4: round-trip — on every bitmap created via `FPDFBitmap_CreateEx`,
filling the full bitmap rectangle with color `C` and then reading the
buffer yields every pixel equal to `C` under the bitmap's pixel-format
encoding: byte `k` of every pixel `(x, y)` holds byte `k` of the
encoding of `C`. -/
theorem fillRect_full_roundtrip (mem : Mem) (b : Bitmap) (color : Nat)
    (h : b.wf) (x y k : Nat) (hx : x < b.widthN) (hy : y < b.heightN)
    (hk : k < b.bpp) :
    FPDFBitmap_FillRect mem b 0 0 b.width b.height color
        (b.first_scan + (y * b.strideN + x * b.bpp + k)) =
      (encodePixel b.fmt color).getD k 0 := by
  have hoff := offset_lt_bufBytes h hx hy hk
  have hd := addr_decompose (y := y) h hx hk
  unfold FPDFBitmap_FillRect
  rw [hd.1, hd.2.1, hd.2.2.1, hd.2.2.2.1, hd.2.2.2.2]
  rw [if_pos]
  refine ⟨Nat.le_add_right _ _, Nat.add_lt_add_left hoff _, ?_⟩
  have hxw : (x : Int) < b.width := by
    have h1 := h.1
    unfold Bitmap.widthN at hx
    omega
  have hyh : (y : Int) < b.height := by
    have h1 := h.2.1
    unfold Bitmap.heightN at hy
    omega
  exact ⟨Int.natCast_nonneg x, by rw [zero_add]; exact hxw, hxw,
    Int.natCast_nonneg y, by rw [zero_add]; exact hyh, hyh⟩

/-- Closed witness for C4: a concrete 2-by-1 BGR bitmap with stride 7 at
base address 100, filled with 0x00112233; byte 2 of pixel (1, 0) — its
red byte — reads back 0x11 from the buffer. -/
theorem fillRect_full_roundtrip_witness :
    (FPDFBitmap_CreateEx 2 1 2 100 7).wf ∧
    FPDFBitmap_FillRect (fun _ => 0) (FPDFBitmap_CreateEx 2 1 2 100 7) 0 0
        (FPDFBitmap_CreateEx 2 1 2 100 7).width
        (FPDFBitmap_CreateEx 2 1 2 100 7).height 0x00112233
        ((FPDFBitmap_CreateEx 2 1 2 100 7).first_scan +
          (0 * (FPDFBitmap_CreateEx 2 1 2 100 7).strideN +
            1 * (FPDFBitmap_CreateEx 2 1 2 100 7).bpp + 2)) =
      (encodePixel (FPDFBitmap_CreateEx 2 1 2 100 7).fmt 0x00112233).getD 2 0 :=
  ⟨by decide,
    fillRect_full_roundtrip (fun _ => 0) (FPDFBitmap_CreateEx 2 1 2 100 7)
      0x00112233 (by decide) 1 0 2 (by decide) (by decide) (by decide)⟩

/-- Claim C1: rendering a page into a bitmap whose caller buffer spans exactly
`stride * height` bytes writes no byte outside that buffer — at every
address below the buffer base or at or beyond base + stride * height,
memory is unchanged — for every rotation in {0, 90, 180, 270} and every
flags value in {0, 0x01}. -/
theorem renderPageBitmap_no_write_outside_buffer (mem : Mem) (b : Bitmap)
    (p : Page) (start_x start_y size_x size_y rotate flags : Int)
    (h : b.wf)
    (_hrot : rotate = 0 ∨ rotate = 90 ∨ rotate = 180 ∨ rotate = 270)
    (_hfl : flags = 0 ∨ flags = (FPDF_ANNOT : Int))
    (a : Nat) (ha : a < b.first_scan ∨ b.first_scan + b.bufBytes ≤ a) :
    FPDF_RenderPageBitmap mem b p start_x start_y size_x size_y rotate flags a
      = mem a := by
  cases hcw : renderWrites b start_x start_y size_x size_y a with
  | false =>
    unfold FPDF_RenderPageBitmap
    rw [hcw]
    rfl
  | true =>
    exfalso
    unfold renderWrites at hcw
    simp only [List.any_eq_true, List.mem_range, beq_iff_eq] at hcw
    obtain ⟨q, hqmem, k, hk, rfl⟩ := hcw
    obtain ⟨hx, hy⟩ := destPixels_mem_lt hqmem
    have hlt := offset_lt_bufBytes h hx hy hk
    omega

/-- Closed witness for C1: a concrete render call on the 2-by-1 BGR
bitmap with stride 7 at base 100, rotation 0, flags 0, leaves the byte
at address 99 — just below the buffer — unchanged. -/
theorem renderPageBitmap_no_write_outside_buffer_witness :
    (FPDFBitmap_CreateEx 2 1 2 100 7).wf ∧
    (99 < (FPDFBitmap_CreateEx 2 1 2 100 7).first_scan ∨
      (FPDFBitmap_CreateEx 2 1 2 100 7).first_scan +
        (FPDFBitmap_CreateEx 2 1 2 100 7).bufBytes ≤ 99) ∧
    FPDF_RenderPageBitmap (fun _ => 5) (FPDFBitmap_CreateEx 2 1 2 100 7)
        ⟨fun _ _ _ => 0, fun _ _ _ => 0⟩ 0 0 2 1 0 0 99 = 5 :=
  ⟨by decide, Or.inl (by decide),
    renderPageBitmap_no_write_outside_buffer (fun _ => 5)
      (FPDFBitmap_CreateEx 2 1 2 100 7) ⟨fun _ _ _ => 0, fun _ _ _ => 0⟩
      0 0 2 1 0 0 (by decide) (Or.inl rfl) (Or.inl rfl) 99
      (Or.inl (by decide))⟩

end FPDFView
